import Mathlib

/-!
Shallow embedding of the ML_Orchestrator workflow engine
(src/workflow_engine/{scheduler,retry_tracker,state,worker_pool}.py and
src/orchestrator_tools/workflow_manager.py), with theorems checking the
specification's claims about it.

Python floats are modelled as rationals; Python dicts of task metadata are
modelled as a structure holding exactly the fields the engine reads;
Redis structures are modelled as association lists; MongoDB collections as
lists of records with update-first / update-many combinators mirroring
`update_one` / `update_many`.  Statuses are kept as the literal strings the
source writes and compares, since the source mixes lowercase enum values
and uppercase string literals.
-/

/-- Task metadata dict handed to the scheduler / retry tracker / workers.
Fields are those read by `scheduler.score`, `retry_tracker.schedule` and
`worker_pool._execute_task`. -/
structure TaskMeta where
  task_id : String
  run_id : String
  agent : String
  action : String
  user_priority : ℚ
  deadline_ts : Option ℚ
  retries : Nat
  last_error : Option String
  retry_timestamp : Option ℚ
deriving DecidableEq, Repr

/-- `ScoredTask` from scheduler.py: score, enqueue time and the task dict.
`__lt__` compares score, then enqueue time. -/
structure ScoredTask where
  score : ℚ
  enqueue_time : ℚ
  task_meta : TaskMeta
deriving DecidableEq, Repr

/-- The strict comparison of `ScoredTask.__lt__`: lower score first,
ties broken by earlier enqueue time. -/
def ScoredTask.lt (a b : ScoredTask) : Prop :=
  if a.score ≠ b.score then a.score < b.score else a.enqueue_time < b.enqueue_time

/-- The non-strict linearisation of `ScoredTask.__lt__` that a heap pop
sequence realises: lexicographic (score, enqueue_time). -/
def lexLe (a b : ScoredTask) : Prop :=
  a.score < b.score ∨ (a.score = b.score ∧ a.enqueue_time ≤ b.enqueue_time)

instance : DecidableRel lexLe := fun a b => by
  unfold lexLe
  exact inferInstance

instance : IsTotal ScoredTask lexLe := by
  constructor
  intro a b
  rcases lt_trichotomy a.score b.score with h | h | h
  · exact Or.inl (Or.inl h)
  · rcases le_total a.enqueue_time b.enqueue_time with ht | ht
    · exact Or.inl (Or.inr ⟨h, ht⟩)
    · exact Or.inr (Or.inr ⟨h.symm, ht⟩)
  · exact Or.inr (Or.inl h)

instance : IsTrans ScoredTask lexLe := by
  constructor
  intro a b c hab hbc
  rcases hab with hab | ⟨hab, hab2⟩
  · rcases hbc with hbc | ⟨hbc, _⟩
    · exact Or.inl (hab.trans hbc)
    · exact Or.inl (hbc ▸ hab)
  · rcases hbc with hbc | ⟨hbc, hbc2⟩
    · exact Or.inl (hab ▸ hbc)
    · exact Or.inr ⟨hab.trans hbc, hab2.trans hbc2⟩

theorem lexLe_refl (a : ScoredTask) : lexLe a a :=
  Or.inr ⟨rfl, le_refl _⟩

/-- Runtime-estimate hash from state.py (`RedisStore`, key `ert`):
`(agent, action) → seconds`, modelled as an association list. -/
abbrev ErtMap := List ((String × String) × ℚ)

/-- Raw hash lookup (`hget` of `RedisStore.get_ert`). -/
def getErtOpt : ErtMap → String → String → Option ℚ
  | [], _, _ => none
  | (k, v) :: rest, agent, action =>
      if k = (agent, action) then some v else getErtOpt rest agent action

/-- `RedisStore.get_ert`: stored estimate for `(agent, action)`, or the
supplied default when no entry exists. -/
def get_ert (m : ErtMap) (agent action : String) (default : ℚ) : ℚ :=
  (getErtOpt m agent action).getD default

/-- `hset`: store a value under a key, replacing an existing binding. -/
def hsetErt : ErtMap → (String × String) → ℚ → ErtMap
  | [], k, v => [(k, v)]
  | (k0, v0) :: rest, k, v =>
      if k0 = k then (k, v) :: rest else (k0, v0) :: hsetErt rest k v

/-- `RedisStore.update_ert`: exponential moving average
`new_ert = 0.7 * old_ert + 0.3 * actual`, where the old estimate defaults
to the actual runtime when no estimate is stored yet. -/
def update_ert (m : ErtMap) (agent action : String) (runtime_seconds : ℚ) : ErtMap :=
  let old_ert := get_ert m agent action runtime_seconds
  let new_ert := 7/10 * old_ert + 3/10 * runtime_seconds
  hsetErt m (agent, action) new_ert

/-- `k` successive `update_ert` calls for the same `(agent, action)` with
the same observed runtime. -/
def iterateErt (m : ErtMap) (agent action : String) (r : ℚ) : Nat → ErtMap
  | 0 => m
  | k + 1 => update_ert (iterateErt m agent action r k) agent action r

/-- Scheduler weights (config keys alpha, beta, gamma; defaults 1, 2, 3). -/
structure SchedConfig where
  alpha : ℚ
  beta : ℚ
  gamma : ℚ
deriving DecidableEq, Repr

def defaultSchedConfig : SchedConfig := ⟨1, 2, 3⟩

/-- `PriorityQueueScheduler.score`.  Mirrors the Python: ERT defaults to
60 s, the runtime component divides by `max(ert, 1)`, a deadline that is
absent or zero (falsy) contributes no urgency, otherwise urgency is
`1 / max(deadline - now, 1)`, and the total is negated so that lower
score means higher priority. -/
def score (cfg : SchedConfig) (ert : ErtMap) (now : ℚ) (m : TaskMeta) : ℚ :=
  let e := get_ert ert m.agent m.action 60
  let runtime_score := cfg.alpha / max e 1
  let priority_score := cfg.beta * m.user_priority
  let urgency : ℚ :=
    match m.deadline_ts with
    | none => 0
    | some d => if d = 0 then 0 else 1 / max (d - now) 1
  let urgency_score := cfg.gamma * urgency
  let total_score := -(runtime_score + priority_score + urgency_score)
  total_score

/-- `PriorityQueueScheduler.enqueue`: push the scored entry onto the heap
(the heap is modelled as a list with multiset meaning). -/
def enqueue (cfg : SchedConfig) (ert : ErtMap) (now : ℚ) (m : TaskMeta)
    (q : List ScoredTask) : List ScoredTask :=
  ⟨score cfg ert now m, now, m⟩ :: q

/-- The order in which `heapq.heappop` drains the heap: nondecreasing in
`ScoredTask.__lt__`, i.e. sorted by (score, enqueue_time). -/
def sortQ (q : List ScoredTask) : List ScoredTask :=
  List.insertionSort lexLe q

/-- Python `min(tasks, key=lambda t: t.score)`: the first element whose
score is minimal. -/
def minByScore : List ScoredTask → Option ScoredTask
  | [] => none
  | x :: xs => some (xs.foldl (fun b t => if t.score < b.score then t else b) x)

/-- `PriorityQueueScheduler.dequeue`.  Without a filter, pop the heap
minimum.  With an agent filter, drain the heap, split entries into those
matching the agent and the rest, take the matching entry of minimal score
(`min` with key `score`), push back every matching entry that is not
structurally equal to it (`task != best_task`), and rebuild the heap from
the non-matching entries.  Returns the popped entry (whose `task_meta`
the Python returns) together with the remaining queue. -/
def dequeue (agent_filter : Option String) (q : List ScoredTask) :
    Option ScoredTask × List ScoredTask :=
  match agent_filter with
  | none =>
      match sortQ q with
      | [] => (none, [])
      | x :: rest => (some x, rest)
  | some a =>
      let sorted := sortQ q
      let matching := sorted.filter (fun t => decide (t.task_meta.agent = a))
      let remaining := sorted.filter (fun t => decide (¬ t.task_meta.agent = a))
      match minByScore matching with
      | none => (none, remaining)
      | some best =>
          (some best, remaining ++ matching.filter (fun t => decide (¬ t = best)))

/-- `PriorityQueueScheduler.remove_task`: drop every entry whose task id
matches. -/
def remove_task (task_id : String) (q : List ScoredTask) : List ScoredTask :=
  q.filter (fun t => decide (¬ t.task_meta.task_id = task_id))

/-- Retry settings from retry_tracker.py (`max_retries=3`,
`backoff_base_s=15`, `backoff_max_s=300` by default). -/
structure RetryConfig where
  max_retries : Nat
  backoff_base_s : ℚ
  backoff_max_s : ℚ
deriving DecidableEq, Repr

def defaultRetryConfig : RetryConfig := ⟨3, 15, 300⟩

/-- The Redis-backed retry delay queue (`RedisStore` sorted set
`retry_q`): member `task_id` scored by the due timestamp, plus the
availability flag (`self.r` is None when Redis is unreachable). -/
structure RedisQ where
  available : Bool
  q : List (String × ℚ)
deriving DecidableEq, Repr

/-- `zadd` on the sorted set: replace the score of an existing member or
insert a new one. -/
def zaddQ : List (String × ℚ) → String → ℚ → List (String × ℚ)
  | [], id, ts => [(id, ts)]
  | (k, v) :: rest, id, ts =>
      if k = id then (id, ts) :: rest else (k, v) :: zaddQ rest id ts

/-- `RetryTracker.schedule`.  Abandon (return false) when the retry count
already reached `max_retries`; otherwise compute the exponential-backoff
delay capped at `backoff_max_s`, mutate the task metadata (retries,
last_error, retry_timestamp), and `zadd` the task into the delay queue at
`now + delay` — which succeeds only when Redis is available.  Returns the
result flag, the (possibly mutated) task metadata, and the new queue
state. -/
def schedule (cfg : RetryConfig) (now : ℚ) (task_meta : TaskMeta)
    (error_context : Option String) (st : RedisQ) :
    Bool × TaskMeta × RedisQ :=
  if cfg.max_retries ≤ task_meta.retries then
    (false, task_meta, st)
  else
    let delay := min (cfg.backoff_base_s * 2 ^ task_meta.retries) cfg.backoff_max_s
    let retry_ts := now + delay
    let meta2 : TaskMeta :=
      { task_meta with
          retries := task_meta.retries + 1
          last_error := error_context
          retry_timestamp := some retry_ts }
    if st.available then
      (true, meta2, { st with q := zaddQ st.q task_meta.task_id retry_ts })
    else
      (false, meta2, st)

/-- Observable outcome of one `WorkerPool._execute_task` call: the event
types emitted (in order), the retry-queue state, and the ERT map. -/
structure ExecResult where
  events : List String
  retry_state : RedisQ
  ert : ErtMap
deriving DecidableEq, Repr

/-- `WorkerPool._execute_task` together with `_call_agent`.  If the run is
in the cancellation set, emit only TASK_CANCELLED.  Otherwise emit
TASK_STARTED and call the agent; `_call_agent` raises unless the HTTP
status is 200.  On 200 the ERT map is updated with the actual runtime and
TASK_SUCCESS is emitted.  On any other status the raised exception is
caught, TASK_FAILED is emitted, and `RetryTracker.schedule` is invoked
unconditionally — there is no gating on the failure kind or status
class. -/
def execute_task (cfg : RetryConfig) (ert : ErtMap) (rst : RedisQ)
    (cancelled : Bool) (now runtime : ℚ) (task_meta : TaskMeta)
    (resp_status : Nat) : ExecResult :=
  if cancelled then
    { events := ["TASK_CANCELLED"], retry_state := rst, ert := ert }
  else if resp_status = 200 then
    { events := ["TASK_STARTED", "TASK_SUCCESS"]
      retry_state := rst
      ert := update_ert ert task_meta.agent task_meta.action runtime }
  else
    let r := schedule cfg now task_meta
      (some ("Agent returned " ++ toString resp_status)) rst
    { events := ["TASK_STARTED", "TASK_FAILED"], retry_state := r.2.2, ert := ert }

/-- Task document from `WorkflowManager._create_task_documents` (the
fields the coordinator reads and writes).  `status` holds the literal
string stored in the document: the coordinator writes the lowercase
`TaskStatus` enum values ("pending", "queued", "completed", "failed",
...), while `cancel_workflow` compares against uppercase literals. -/
structure TaskDoc where
  run_id : String
  task_id : String
  status : String
  retries : Nat
  in_degree : Nat
  depends_on : List String
  cancellation_requested : Bool
deriving DecidableEq, Repr

/-- Workflow (run) document from `WorkflowManager.init_workflow`. -/
structure RunDoc where
  run_id : String
  status : String
  total_tasks : Nat
  completed_tasks : Nat
  failed_tasks : Nat
  cancellation_reason : Option String
  cancelled_by : Option String
deriving DecidableEq, Repr

/-- The state the coordinator manipulates: the `runs` and `tasks`
collections, the engine scheduler queue and retry delay queue (identified
by the task ids they hold), and the Redis `cancelled_runs` set. -/
structure OrchDB where
  runs : List RunDoc
  tasks : List TaskDoc
  sched_ids : List String
  retry_ids : List String
  cancelled_runs : List String
deriving DecidableEq, Repr

/-- Mongo `update_one`: rewrite the first document matching the filter. -/
def updateOne (p : α → Bool) (f : α → α) : List α → List α
  | [] => []
  | x :: xs => if p x then f x :: xs else x :: updateOne p f xs

/-- Mongo `update_many`: rewrite every document matching the filter. -/
def updateMany (p : α → Bool) (f : α → α) (l : List α) : List α :=
  l.map fun x => if p x then f x else x

/-- Status of a run as `find_one({run_id})` sees it. -/
def getRunStatus (db : OrchDB) (run_id : String) : Option String :=
  (db.runs.find? fun r => r.run_id == run_id).map fun r => r.status

/-- Status of a task as `find_one({run_id, task_id})` sees it. -/
def getTaskStatus (db : OrchDB) (run_id task_id : String) : Option String :=
  (db.tasks.find? fun t => t.run_id == run_id && t.task_id == task_id).map
    fun t => t.status

/-- `WorkflowManager._process_dependent_tasks`: for each task of the run
that depends on the completed task and is still pending, decrement its
in-degree; when the in-degree reaches zero the task is enqueued
(`_enqueue_task` flips its status to "queued" and pushes it into the
engine scheduler). -/
def process_dependent_tasks (db : OrchDB) (run_id completed_task_id : String) :
    OrchDB :=
  let dep := fun (t : TaskDoc) =>
    t.run_id == run_id && t.depends_on.contains completed_task_id &&
      t.status == "pending"
  let newly_ready :=
    (db.tasks.filter fun t => dep t && t.in_degree == 1).map fun t => t.task_id
  { db with
      tasks := updateMany dep
        (fun t =>
          let d := t.in_degree - 1
          { t with in_degree := d, status := if d = 0 then "queued" else t.status })
        db.tasks
      sched_ids := db.sched_ids ++ newly_ready }

/-- `WorkflowManager._check_workflow_completion`: once
`completed_tasks + failed_tasks >= total_tasks`, mark the run "failed"
when any task failed, otherwise "completed".  Until then the run record
is left untouched. -/
def check_workflow_completion (db : OrchDB) (run_id : String) : OrchDB :=
  match db.runs.find? (fun r => r.run_id == run_id) with
  | none => db
  | some w =>
      if w.total_tasks ≤ w.completed_tasks + w.failed_tasks then
        if 0 < w.failed_tasks then
          { db with
              runs := updateOne (fun r => r.run_id == run_id)
                (fun r => { r with status := "failed" }) db.runs }
        else
          { db with
              runs := updateOne (fun r => r.run_id == run_id)
                (fun r => { r with status := "completed" }) db.runs }
      else db

/-- `WorkflowManager.handle_task_completion`: record the task outcome
("completed" / "failed"), bump the corresponding run counter, process
dependents only on success, then evaluate workflow completion. -/
def handle_task_completion (db : OrchDB) (run_id task_id : String)
    (success : Bool) : OrchDB :=
  let new_status := if success then "completed" else "failed"
  let tasks1 := updateOne
    (fun t => t.run_id == run_id && t.task_id == task_id)
    (fun t => { t with status := new_status }) db.tasks
  let runs1 :=
    if success then
      updateOne (fun r => r.run_id == run_id)
        (fun r => { r with completed_tasks := r.completed_tasks + 1 }) db.runs
    else
      updateOne (fun r => r.run_id == run_id)
        (fun r => { r with failed_tasks := r.failed_tasks + 1 }) db.runs
  let db1 : OrchDB := { db with tasks := tasks1, runs := runs1 }
  let db2 := if success then process_dependent_tasks db1 run_id task_id else db1
  check_workflow_completion db2 run_id

/-- The second (authoritative, it shadows the first) definition of
`WorkflowManager.cancel_workflow`, Mongo path.  Reject when the run is
missing or its status is one of the uppercase literals "COMPLETED",
"FAILED", "CANCELLED"; otherwise set the run to "CANCELLING" with the
cancellation metadata, flip tasks whose status is "PENDING" or "QUEUED"
(uppercase) to "CANCELLED", set `cancellation_requested` on tasks whose
status is "RUNNING", and `sadd` the run into the Redis `cancelled_runs`
set.  Neither the engine scheduler queue nor the retry delay queue is
touched. -/
def cancel_workflow (db : OrchDB) (run_id reason cancelled_by : String) :
    Bool × OrchDB :=
  match db.runs.find? (fun r => r.run_id == run_id) with
  | none => (false, db)
  | some w =>
      if w.status = "COMPLETED" ∨ w.status = "FAILED" ∨ w.status = "CANCELLED" then
        (false, db)
      else
        let runs1 := updateOne (fun r => r.run_id == run_id)
          (fun r =>
            { r with
                status := "CANCELLING"
                cancellation_reason := some reason
                cancelled_by := some cancelled_by }) db.runs
        let tasks1 := updateMany
          (fun t => t.run_id == run_id &&
            (t.status == "PENDING" || t.status == "QUEUED"))
          (fun t => { t with status := "CANCELLED" }) db.tasks
        let tasks2 := updateMany
          (fun t => t.run_id == run_id && t.status == "RUNNING")
          (fun t => { t with cancellation_requested := true }) tasks1
        let cset :=
          if run_id ∈ db.cancelled_runs then db.cancelled_runs
          else db.cancelled_runs ++ [run_id]
        (true,
          { db with runs := runs1, tasks := tasks2, cancelled_runs := cset })

/-! Concrete sample values used by counterexamples and witnesses. -/

/-- A plain task dict with no deadline and no retries yet. -/
def metaS1 : TaskMeta := ⟨"t1", "w1", "agA", "act", 1/2, none, 0, none, none⟩

def metaS2 : TaskMeta := ⟨"t2", "w1", "agA", "act", 1/2, none, 0, none, none⟩

/-- Task dict with a deadline at t = 10. -/
def metaC2x : TaskMeta := ⟨"tc2", "w", "agA", "act", 1/2, some 10, 0, none, none⟩

def metaC4x : TaskMeta := ⟨"tc4", "w", "agA", "act", 1/2, none, 0, none, none⟩

/-- Task dict whose retry count already reached the default cap. -/
def metaC10x : TaskMeta := ⟨"tc10", "w", "agA", "act", 1/2, none, 3, none, none⟩

def metaC7x : TaskMeta := ⟨"t7", "w7", "a7", "act", 1/2, none, 0, none, none⟩

def metaC9x : TaskMeta := ⟨"t9", "w9", "ag9", "act", 1/2, none, 0, none, none⟩

/-- Scheduler entry duplicated in the C9 counterexample queue. -/
def sC9 : ScoredTask := ⟨-1, 0, metaC9x⟩

def sC3a : ScoredTask := ⟨-1, 0, metaS1⟩

def sC3b : ScoredTask := ⟨-2, 0, metaS2⟩

/-- Single-task workflow used for the C6 scenario. -/
def runW : RunDoc := ⟨"W", "running", 1, 0, 0, none, none⟩

def taskA : TaskDoc := ⟨"W", "A", "running", 0, 0, [], false⟩

def dbC6 : OrchDB := ⟨[runW], [taskA], [], [], []⟩

/-- The C6 database after the coordinator recorded the terminal failure of
its only task: `_check_workflow_completion` wrote status "failed". -/
def dbC6f : OrchDB := handle_task_completion dbC6 "W" "A" false

/-- Chain A -> B -> C on one workflow, A currently running, used for C1. -/
def runW3 : RunDoc := ⟨"W1", "running", 3, 0, 0, none, none⟩

def tA : TaskDoc := ⟨"W1", "A", "running", 0, 0, [], false⟩

def tB : TaskDoc := ⟨"W1", "B", "pending", 0, 1, ["A"], false⟩

def tC : TaskDoc := ⟨"W1", "C", "pending", 0, 1, ["B"], false⟩

def dbC1 : OrchDB := ⟨[runW3], [tA, tB, tC], [], [], []⟩

/-- The C1 database after the coordinator handled the terminal failure of
task A. -/
def dbC1f : OrchDB := handle_task_completion dbC1 "W1" "A" false

/-- Running workflow with a pending task, a queued task sitting in the
scheduler queue, and a retrying task sitting in the delay queue; used for
C5. -/
def runC5 : RunDoc := ⟨"W5", "running", 3, 0, 0, none, none⟩

def tP : TaskDoc := ⟨"W5", "P", "pending", 0, 1, ["Q"], false⟩

def tQ : TaskDoc := ⟨"W5", "Q", "queued", 0, 0, [], false⟩

def tR : TaskDoc := ⟨"W5", "R", "retry", 1, 0, [], false⟩

def dbC5 : OrchDB := ⟨[runC5], [tP, tQ, tR], ["Q"], ["R"], []⟩

/-! Helper lemmas. -/

theorem find?_updateOne (p : α → Bool) (f : α → α) (l : List α)
    (hp : ∀ x, p x = true → p (f x) = true) :
    (updateOne p f l).find? p = (l.find? p).map f := by
  induction l with
  | nil => rfl
  | cons x xs ih =>
    by_cases hx : p x = true
    · rw [updateOne, if_pos hx, List.find?_cons_of_pos _ (hp x hx),
        List.find?_cons_of_pos _ hx]
      rfl
    · have hx2 : p x = false := by revert hx; cases p x <;> simp
      rw [updateOne, if_neg (by simp [hx2]), List.find?_cons_of_neg _ (by simp [hx2]),
        List.find?_cons_of_neg _ (by simp [hx2]), ih]

theorem mem_updateMany_of_false (p : α → Bool) (f : α → α) (l : List α)
    (t : α) (ht : t ∈ l) (hp : p t = false) : t ∈ updateMany p f l := by
  have hfix : (fun x => if p x then f x else x) t = t := by simp [hp]
  unfold updateMany
  exact hfix ▸ List.mem_map_of_mem _ ht

theorem check_workflow_completion_frame (db : OrchDB) (run_id : String) :
    (check_workflow_completion db run_id).tasks = db.tasks ∧
    (check_workflow_completion db run_id).sched_ids = db.sched_ids ∧
    (check_workflow_completion db run_id).retry_ids = db.retry_ids ∧
    (check_workflow_completion db run_id).cancelled_runs = db.cancelled_runs := by
  unfold check_workflow_completion
  cases db.runs.find? (fun r => r.run_id == run_id) with
  | none => exact ⟨rfl, rfl, rfl, rfl⟩
  | some w =>
    dsimp only
    split
    · split <;> exact ⟨rfl, rfl, rfl, rfl⟩
    · exact ⟨rfl, rfl, rfl, rfl⟩

theorem find?_updateOne_run (l : List RunDoc) (run_id : String)
    (f : RunDoc → RunDoc) (hf : ∀ r, (f r).run_id = r.run_id) (w : RunDoc)
    (hw : l.find? (fun r => r.run_id == run_id) = some w) :
    (updateOne (fun r => r.run_id == run_id) f l).find?
      (fun r => r.run_id == run_id) = some (f w) := by
  have hp : ∀ x, ((fun r => r.run_id == run_id) x = true) →
      ((fun r => r.run_id == run_id) (f x) = true) := by
    intro x hx
    simpa [hf x] using hx
  rw [find?_updateOne (fun r => r.run_id == run_id) f l hp, hw]
  rfl

theorem getRunStatus_check (db : OrchDB) (run_id : String) (w : RunDoc)
    (hw : db.runs.find? (fun r => r.run_id == run_id) = some w) :
    getRunStatus (check_workflow_completion db run_id) run_id =
      if w.total_tasks ≤ w.completed_tasks + w.failed_tasks then
        (if 0 < w.failed_tasks then some "failed" else some "completed")
      else some w.status := by
  unfold check_workflow_completion
  rw [hw]
  dsimp only
  split
  · split
    · unfold getRunStatus
      dsimp only
      rw [find?_updateOne_run db.runs run_id
        (fun r => { r with status := "failed" }) (fun r => rfl) w hw]
      rfl
    · unfold getRunStatus
      dsimp only
      rw [find?_updateOne_run db.runs run_id
        (fun r => { r with status := "completed" }) (fun r => rfl) w hw]
      rfl
  · unfold getRunStatus
    rw [hw]
    rfl

theorem getErtOpt_hset (m : ErtMap) (a act : String) (v : ℚ) :
    getErtOpt (hsetErt m (a, act) v) a act = some v := by
  induction m with
  | nil => simp [hsetErt, getErtOpt]
  | cons kv rest ih =>
    obtain ⟨k0, v0⟩ := kv
    by_cases hk : k0 = (a, act)
    · rw [hsetErt, if_pos hk]
      simp [getErtOpt]
    · rw [hsetErt, if_neg hk, getErtOpt, if_neg hk, ih]

theorem getErtOpt_update (m : ErtMap) (a act : String) (r e : ℚ)
    (he : getErtOpt m a act = some e) :
    getErtOpt (update_ert m a act r) a act = some (7/10 * e + 3/10 * r) := by
  unfold update_ert get_ert
  rw [he]
  exact getErtOpt_hset m a act _

theorem getErtOpt_iterate (m : ErtMap) (a act : String) (r e0 : ℚ)
    (he : getErtOpt m a act = some e0) (k : Nat) :
    getErtOpt (iterateErt m a act r k) a act =
      some (r + (7/10 : ℚ)^k * (e0 - r)) := by
  induction k with
  | zero =>
    rw [iterateErt, he]
    congr 1
    ring
  | succ k ih =>
    rw [iterateErt, getErtOpt_update _ _ _ _ _ ih]
    congr 1
    rw [pow_succ]
    ring

/-! Claim theorems. -/

/-- Claim C2: for every task metadata, the scheduler score is
`-(alpha / max(ERT, 1) + beta * user_priority + gamma * urgency)`, where
ERT is the estimate stored for the task's (agent, action) pair (the
configured 60 s default when absent) and urgency is
`1 / max(deadline - now, 1)` when a deadline is set and `0` otherwise
(an absent — or Python-falsy zero — deadline contributes nothing); lower
score means higher priority. -/
theorem c2_score_formula (cfg : SchedConfig) (ert : ErtMap) (now : ℚ)
    (m : TaskMeta) :
    (∀ d : ℚ, m.deadline_ts = some d → d ≠ 0 →
      score cfg ert now m =
        -(cfg.alpha / max (get_ert ert m.agent m.action 60) 1 +
          cfg.beta * m.user_priority + cfg.gamma * (1 / max (d - now) 1))) ∧
    (m.deadline_ts = none →
      score cfg ert now m =
        -(cfg.alpha / max (get_ert ert m.agent m.action 60) 1 +
          cfg.beta * m.user_priority + cfg.gamma * 0)) ∧
    (m.deadline_ts = some 0 →
      score cfg ert now m =
        -(cfg.alpha / max (get_ert ert m.agent m.action 60) 1 +
          cfg.beta * m.user_priority + cfg.gamma * 0)) ∧
    (getErtOpt ert m.agent m.action = none →
      get_ert ert m.agent m.action 60 = 60) ∧
    (∀ v : ℚ, getErtOpt ert m.agent m.action = some v →
      get_ert ert m.agent m.action 60 = v) := by
  refine ⟨?_, ?_, ?_, ?_, ?_⟩
  · intro d hd hne
    simp [score, hd, hne]
  · intro hd
    simp [score, hd]
  · intro hd
    simp [score, hd]
  · intro h
    simp [get_ert, h]
  · intro v h
    simp [get_ert, h]

/-- Witness for C2 at a concrete task: deadline 10, now 0, empty estimate
map, default weights; the score evaluates to
`-(1/60 + 2 * (1/2) + 3 * (1/10)) = -79/60`. -/
theorem c2_score_formula_witness :
    score defaultSchedConfig [] 0 metaC2x = -(79/60 : ℚ) := by
  have h := (c2_score_formula defaultSchedConfig [] 0 metaC2x).1 10 rfl
    (by norm_num)
  rw [h]
  norm_num [get_ert, getErtOpt, defaultSchedConfig, metaC2x]

theorem schedule_retriable_eq (cfg : RetryConfig) (now : ℚ) (meta : TaskMeta)
    (err : Option String) (st : RedisQ)
    (h : meta.retries < cfg.max_retries) (ha : st.available = true) :
    schedule cfg now meta err st =
      (true,
       { meta with
           retries := meta.retries + 1
           last_error := err
           retry_timestamp :=
             some (now + min (cfg.backoff_base_s * 2 ^ meta.retries)
               cfg.backoff_max_s) },
       { st with
           q := zaddQ st.q meta.task_id
             (now + min (cfg.backoff_base_s * 2 ^ meta.retries)
               cfg.backoff_max_s) }) := by
  rw [schedule, if_neg (not_le.mpr h)]
  dsimp only
  rw [ha]
  simp

/-- Claim C4: `RetryTracker.schedule` abandons (returns false) when the
retry count already reached `max_retries`; otherwise, with the delay
queue reachable, it computes `delay = min(backoff_base * 2^retries,
backoff_max)`, increments the retry count on the task metadata, inserts
an entry keyed by the task id with due time `now + delay` into the delay
queue, and returns true.  The defaults are 3 retries, 15 s base,
300 s cap. -/
theorem c4_schedule_backoff (cfg : RetryConfig) (now : ℚ) (meta : TaskMeta)
    (err : Option String) (st : RedisQ) :
    (cfg.max_retries ≤ meta.retries →
      schedule cfg now meta err st = (false, meta, st)) ∧
    (meta.retries < cfg.max_retries → st.available = true →
      schedule cfg now meta err st =
        (true,
         { meta with
             retries := meta.retries + 1
             last_error := err
             retry_timestamp :=
               some (now + min (cfg.backoff_base_s * 2 ^ meta.retries)
                 cfg.backoff_max_s) },
         { st with
             q := zaddQ st.q meta.task_id
               (now + min (cfg.backoff_base_s * 2 ^ meta.retries)
                 cfg.backoff_max_s) })) ∧
    defaultRetryConfig.max_retries = 3 ∧
    defaultRetryConfig.backoff_base_s = 15 ∧
    defaultRetryConfig.backoff_max_s = 300 := by
  refine ⟨fun h => ?_, fun h ha => ?_, rfl, rfl, rfl⟩
  · rw [schedule, if_pos h]
  · exact schedule_retriable_eq cfg now meta err st h ha

/-- Witness for C4: a fresh task (0 retries) scheduled at t = 0 with the
default config lands in the delay queue at due time 15. -/
theorem c4_schedule_backoff_witness :
    schedule defaultRetryConfig 0 metaC4x none ⟨true, []⟩ =
      (true,
       { metaC4x with
           retries := 1
           last_error := none
           retry_timestamp := some 15 },
       ⟨true, [("tc4", 15)]⟩) := by
  have h := (c4_schedule_backoff defaultRetryConfig 0 metaC4x none
    ⟨true, []⟩).2.1 (by decide) rfl
  rw [h]
  norm_num [metaC4x, defaultRetryConfig, zaddQ, min_def]

/-- Claim C10: when the retry count already reached `max_retries`,
`schedule` returns false without touching the task metadata (retries,
last_error and retry_timestamp keep their values) and without adding any
entry to the delay queue. -/
theorem c10_schedule_abandon_frame (cfg : RetryConfig) (now : ℚ)
    (meta : TaskMeta) (err : Option String) (st : RedisQ)
    (h : cfg.max_retries ≤ meta.retries) :
    schedule cfg now meta err st = (false, meta, st) := by
  rw [schedule, if_pos h]

/-- Witness for C10: a task at the default cap of 3 retries is abandoned
and nothing changes. -/
theorem c10_schedule_abandon_frame_witness :
    schedule defaultRetryConfig 0 metaC10x none ⟨true, []⟩ =
      (false, metaC10x, ⟨true, []⟩) :=
  c10_schedule_abandon_frame defaultRetryConfig 0 metaC10x none ⟨true, []⟩
    (by decide)

/-- Claim C7 is false on the code: a 4xx response is not terminal for the
retry path.  `_call_agent` raises on any non-200 status and
`_execute_task` then calls `RetryTracker.schedule` unconditionally, so a
400 response for a fresh task (0 retries) produces a delay-queue entry
(due at `now + 15` with the default backoff), contradicting the claim
that a 4xx failure never produces one. -/
theorem c7_counterexample :
    (execute_task defaultRetryConfig [] ⟨true, []⟩ false 0 1 metaC7x 400).events
        = ["TASK_STARTED", "TASK_FAILED"] ∧
    (execute_task defaultRetryConfig [] ⟨true, []⟩ false 0 1 metaC7x 400).retry_state.q
        = [("t7", 15)] := by
  have h400 : (400 : Nat) = 200 → False := by decide
  constructor
  · simp [execute_task, h400]
  · have hs := schedule_retriable_eq defaultRetryConfig 0 metaC7x
      (some ("Agent returned " ++ toString 400)) ⟨true, []⟩ (by decide) rfl
    simp only [execute_task, if_neg h400, Bool.false_eq_true, if_false, hs]
    norm_num [metaC7x, defaultRetryConfig, zaddQ, min_def]

/-- Claim C7 amended: the worker pool applies no gating by failure kind —
on every non-200 agent response (4xx included) it emits TASK_FAILED and
hands the task to `RetryTracker.schedule`, so the failure produces a
delay-queue entry whenever the retry count is below `max_retries` and
the delay queue is reachable. -/
theorem c7_amended (cfg : RetryConfig) (ert : ErtMap) (rst : RedisQ)
    (now runtime : ℚ) (meta : TaskMeta) (s : Nat)
    (hs : ¬ s = 200) (hr : meta.retries < cfg.max_retries)
    (ha : rst.available = true) :
    execute_task cfg ert rst false now runtime meta s =
      { events := ["TASK_STARTED", "TASK_FAILED"]
        retry_state :=
          { rst with
              q := zaddQ rst.q meta.task_id
                (now + min (cfg.backoff_base_s * 2 ^ meta.retries)
                  cfg.backoff_max_s) }
        ert := ert } := by
  have hsch := schedule_retriable_eq cfg now meta
    (some ("Agent returned " ++ toString s)) rst hr ha
  simp only [execute_task, Bool.false_eq_true, if_false, if_neg hs, hsch]

/-- Witness for the amended C7 at status 400 with a fresh task and an
empty, reachable delay queue. -/
theorem c7_amended_witness :
    execute_task defaultRetryConfig [] ⟨true, []⟩ false 0 1 metaC7x 400 =
      { events := ["TASK_STARTED", "TASK_FAILED"]
        retry_state :=
          { available := true
            q := zaddQ [] metaC7x.task_id
              (0 + min (defaultRetryConfig.backoff_base_s * 2 ^ metaC7x.retries)
                defaultRetryConfig.backoff_max_s) }
        ert := [] } :=
  c7_amended defaultRetryConfig [] ⟨true, []⟩ 0 1 metaC7x 400 (by decide)
    (by decide) rfl

/-- Claim C8: on success the stored estimate for (agent, action) is
replaced by `0.7 * old + 0.3 * actual`, and after `k` consecutive
observations of the same runtime `r` the stored estimate is within
`0.7^k * |r - initial|` of `r`. -/
theorem c8_ert_ema (m : ErtMap) (a act : String) (r : ℚ) :
    (∀ e : ℚ, getErtOpt m a act = some e →
      getErtOpt (update_ert m a act r) a act = some (7/10 * e + 3/10 * r)) ∧
    (∀ (e0 v : ℚ) (k : Nat), getErtOpt m a act = some e0 → 1 ≤ k →
      getErtOpt (iterateErt m a act r k) a act = some v →
      |v - r| ≤ (7/10 : ℚ)^k * |r - e0|) := by
  constructor
  · intro e he
    exact getErtOpt_update m a act r e he
  · intro e0 v k he _ hv
    rw [getErtOpt_iterate m a act r e0 he k] at hv
    have hv2 : v = r + (7/10 : ℚ)^k * (e0 - r) := (Option.some_injective _ hv).symm
    have habs : |v - r| = (7/10 : ℚ)^k * |r - e0| := by
      rw [hv2]
      rw [show r + (7/10 : ℚ)^k * (e0 - r) - r = (7/10 : ℚ)^k * (e0 - r) by ring]
      rw [abs_mul, abs_of_nonneg (pow_nonneg (by norm_num) k), abs_sub_comm]
    exact le_of_eq habs

/-- Witness for C8: initial estimate 100, one observation of runtime 10
gives a stored estimate of 73, and |73 - 10| = 63 ≤ 0.7 * |10 - 100|. -/
theorem c8_ert_ema_witness :
    |(73 : ℚ) - 10| ≤ (7/10 : ℚ)^(1 : Nat) * |(10 : ℚ) - 100| := by
  have h := (c8_ert_ema [(("agA", "act"), 100)] "agA" "act" 10).2 100 73 1 rfl
    (by decide)
  apply h
  show getErtOpt (update_ert [(("agA", "act"), 100)] "agA" "act" 10) "agA" "act"
    = some 73
  rw [getErtOpt_update [(("agA", "act"), 100)] "agA" "act" 10 100 rfl]
  norm_num

/-- Claim C1 is false on the code: after the coordinator handles the
terminal failure of task A in the chain A -> B -> C, the workflow is
still "running" (not FAILED) because `_check_workflow_completion` only
flips the status once `completed + failed >= total`, and the siblings B
and C are still "pending" (never cancelled). -/
theorem c1_counterexample :
    getTaskStatus dbC1f "W1" "A" = some "failed" ∧
    getRunStatus dbC1f "W1" = some "running" ∧
    getTaskStatus dbC1f "W1" "B" = some "pending" ∧
    getTaskStatus dbC1f "W1" "C" = some "pending" := by
  decide

/-- Claim C1 amended: when the coordinator handles a terminal task
failure it marks that task "failed" and leaves every other task record
untouched (no sibling is cancelled) and the scheduler queue untouched;
the workflow status becomes "failed" only when
`completed + failed >= total` after counting this failure, and is left
unchanged while tasks are still outstanding. -/
theorem c1_amended (db : OrchDB) (run_id task_id : String) (w : RunDoc)
    (hw : db.runs.find? (fun r => r.run_id == run_id) = some w) :
    (handle_task_completion db run_id task_id false).tasks =
      updateOne (fun t => t.run_id == run_id && t.task_id == task_id)
        (fun t => { t with status := "failed" }) db.tasks ∧
    (handle_task_completion db run_id task_id false).sched_ids = db.sched_ids ∧
    (w.completed_tasks + w.failed_tasks + 1 < w.total_tasks →
      getRunStatus (handle_task_completion db run_id task_id false) run_id =
        some w.status) ∧
    (w.total_tasks ≤ w.completed_tasks + w.failed_tasks + 1 →
      getRunStatus (handle_task_completion db run_id task_id false) run_id =
        some "failed") := by
  have hdb1 : handle_task_completion db run_id task_id false =
      check_workflow_completion
        { db with
            tasks := updateOne (fun t => t.run_id == run_id && t.task_id == task_id)
              (fun t => { t with status := "failed" }) db.tasks
            runs := updateOne (fun r => r.run_id == run_id)
              (fun r => { r with failed_tasks := r.failed_tasks + 1 }) db.runs }
        run_id := by
    simp [handle_task_completion]
  have hfind :
      ({ db with
          tasks := updateOne (fun t => t.run_id == run_id && t.task_id == task_id)
            (fun t => { t with status := "failed" }) db.tasks
          runs := updateOne (fun r => r.run_id == run_id)
            (fun r => { r with failed_tasks := r.failed_tasks + 1 }) db.runs } :
          OrchDB).runs.find? (fun r => r.run_id == run_id) =
        some { w with failed_tasks := w.failed_tasks + 1 } := by
    exact find?_updateOne_run db.runs run_id
      (fun r => { r with failed_tasks := r.failed_tasks + 1 }) (fun r => rfl) w hw
  refine ⟨?_, ?_, ?_, ?_⟩
  · rw [hdb1]
    exact (check_workflow_completion_frame _ _).1
  · rw [hdb1]
    exact (check_workflow_completion_frame _ _).2.1
  · intro h
    rw [hdb1, getRunStatus_check _ run_id _ hfind]
    dsimp only
    rw [if_neg
      (by omega : ¬ (w.total_tasks ≤ w.completed_tasks + (w.failed_tasks + 1)))]
  · intro h
    rw [hdb1, getRunStatus_check _ run_id _ hfind]
    dsimp only
    rw [if_pos
      (by omega : w.total_tasks ≤ w.completed_tasks + (w.failed_tasks + 1)),
      if_pos (Nat.succ_pos w.failed_tasks)]

/-- Witness for the amended C1: in the A -> B -> C chain, after A's
terminal failure the workflow status is unchanged ("running") since two
tasks are still outstanding. -/
theorem c1_amended_witness :
    getRunStatus (handle_task_completion dbC1 "W1" "A" false) "W1" =
      some runW3.status :=
  (c1_amended dbC1 "W1" "A" runW3 (by decide)).2.2.1 (by decide)

/-- Claim C5 is false on the code: after `cancel_workflow` succeeds on a
running workflow, the queued task Q still has status "queued" and the
pending task P still has status "pending" (the update filter matches the
uppercase literals "PENDING"/"QUEUED", never the lowercase statuses the
coordinator writes), and the scheduler queue and retry delay queue still
hold the run's tasks — nothing is drained. -/
theorem c5_counterexample :
    (cancel_workflow dbC5 "W5" "user-requested" "user").1 = true ∧
    getTaskStatus (cancel_workflow dbC5 "W5" "user-requested" "user").2 "W5" "Q" =
      some "queued" ∧
    getTaskStatus (cancel_workflow dbC5 "W5" "user-requested" "user").2 "W5" "P" =
      some "pending" ∧
    (cancel_workflow dbC5 "W5" "user-requested" "user").2.sched_ids = ["Q"] ∧
    (cancel_workflow dbC5 "W5" "user-requested" "user").2.retry_ids = ["R"] := by
  decide

/-- Claim C5 amended: a successful `cancel_workflow` records the intent —
run status "CANCELLING", run id added to the cancellation set — but
drains nothing: tasks whose stored status is the lowercase "pending" or
"queued" are left exactly as they were (the update filter only matches
uppercase literals), and the scheduler priority queue and the retry delay
queue are untouched; queued work is only fenced later, when workers check
the cancellation set at dequeue time. -/
theorem c5_amended (db : OrchDB) (run_id reason cb : String) (w : RunDoc)
    (hw : db.runs.find? (fun r => r.run_id == run_id) = some w)
    (hterm : ¬ (w.status = "COMPLETED" ∨ w.status = "FAILED" ∨
      w.status = "CANCELLED")) :
    (cancel_workflow db run_id reason cb).1 = true ∧
    getRunStatus (cancel_workflow db run_id reason cb).2 run_id =
      some "CANCELLING" ∧
    (cancel_workflow db run_id reason cb).2.sched_ids = db.sched_ids ∧
    (cancel_workflow db run_id reason cb).2.retry_ids = db.retry_ids ∧
    run_id ∈ (cancel_workflow db run_id reason cb).2.cancelled_runs ∧
    (∀ t ∈ db.tasks, t.status = "pending" ∨ t.status = "queued" →
      t ∈ (cancel_workflow db run_id reason cb).2.tasks) := by
  have hcw : cancel_workflow db run_id reason cb =
      (true,
       { db with
           runs := updateOne (fun r => r.run_id == run_id)
             (fun r =>
               { r with
                   status := "CANCELLING"
                   cancellation_reason := some reason
                   cancelled_by := some cb }) db.runs
           tasks := updateMany
             (fun t => t.run_id == run_id &&
               (t.status == "PENDING" || t.status == "QUEUED"))
             (fun t => { t with status := "CANCELLED" })
             db.tasks |> updateMany
               (fun t => t.run_id == run_id && t.status == "RUNNING")
               (fun t => { t with cancellation_requested := true })
           cancelled_runs :=
             if run_id ∈ db.cancelled_runs then db.cancelled_runs
             else db.cancelled_runs ++ [run_id] }) := by
    unfold cancel_workflow
    rw [hw]
    dsimp only
    rw [if_neg hterm]
  rw [hcw]
  refine ⟨rfl, ?_, rfl, rfl, ?_, ?_⟩
  · unfold getRunStatus
    dsimp only
    rw [find?_updateOne_run db.runs run_id
      (fun r =>
        { r with
            status := "CANCELLING"
            cancellation_reason := some reason
            cancelled_by := some cb }) (fun r => rfl) w hw]
    rfl
  · dsimp only
    by_cases hmem : run_id ∈ db.cancelled_runs
    · rw [if_pos hmem]
      exact hmem
    · rw [if_neg hmem]
      exact List.mem_append_right _ (List.mem_singleton.mpr rfl)
  · intro t ht hst
    dsimp only
    have e1 : (t.status == "PENDING") = false := by
      rcases hst with h | h <;> rw [h] <;> rfl
    have e2 : (t.status == "QUEUED") = false := by
      rcases hst with h | h <;> rw [h] <;> rfl
    have e3 : (t.status == "RUNNING") = false := by
      rcases hst with h | h <;> rw [h] <;> rfl
    have h1 : (t.run_id == run_id &&
        (t.status == "PENDING" || t.status == "QUEUED")) = false := by
      rw [e1, e2]
      simp
    have h2 : (t.run_id == run_id && t.status == "RUNNING") = false := by
      rw [e3]
      simp
    exact mem_updateMany_of_false _ _ _ t
      (mem_updateMany_of_false _ _ _ t ht h1) h2

/-- Witness for the amended C5: cancelling the running workflow W5 adds
it to the cancellation set. -/
theorem c5_amended_witness :
    "W5" ∈ (cancel_workflow dbC5 "W5" "user-requested" "user").2.cancelled_runs :=
  (c5_amended dbC5 "W5" "user-requested" "user" runC5 (by decide)
    (by decide)).2.2.2.2.1

/-- Claim C6 is right and the code is wrong: the coordinator's own
terminal evaluation writes the lowercase status "failed", but
`cancel_workflow` rejects only the uppercase literals
"COMPLETED"/"FAILED"/"CANCELLED".  Cancelling the already-failed
workflow W is therefore accepted (returns true) and overwrites the
terminal status with "CANCELLING", where the spec requires the request
to be rejected with the record unchanged. -/
theorem c6_cancel_accepts_terminal_bug :
    getRunStatus dbC6f "W" = some "failed" ∧
    (cancel_workflow dbC6f "W" "stale" "ops").1 = true ∧
    getRunStatus (cancel_workflow dbC6f "W" "stale" "ops").2 "W" =
      some "CANCELLING" := by
  decide

/-- The heap drain order is sorted. -/
theorem sortQ_sorted (q : List ScoredTask) : List.Sorted lexLe (sortQ q) :=
  List.sorted_insertionSort lexLe q

/-- The heap drain order is a permutation of the queue contents. -/
theorem sortQ_perm (q : List ScoredTask) : (sortQ q).Perm q :=
  List.perm_insertionSort lexLe q

theorem mem_sortQ {x : ScoredTask} {q : List ScoredTask} :
    x ∈ sortQ q ↔ x ∈ q :=
  (sortQ_perm q).mem_iff

theorem foldl_min_keep (x : ScoredTask) (xs : List ScoredTask)
    (h : ∀ t ∈ xs, ¬ t.score < x.score) :
    xs.foldl (fun b t => if t.score < b.score then t else b) x = x := by
  induction xs with
  | nil => rfl
  | cons y ys ih =>
    rw [List.foldl_cons, if_neg (h y (List.mem_cons_self y ys))]
    exact ih fun t ht => h t (List.mem_cons_of_mem y ht)

/-- Python `min` with key `score` over a (score, enqueue_time)-sorted list
returns the head. -/
theorem minByScore_of_sorted (x : ScoredTask) (xs : List ScoredTask)
    (hs : List.Sorted lexLe (x :: xs)) :
    minByScore (x :: xs) = some x := by
  have hmin : ∀ t ∈ xs, ¬ t.score < x.score := by
    intro t ht
    rcases (List.sorted_cons.mp hs).1 t ht with h | ⟨h, _⟩
    · exact not_lt.mpr h.le
    · exact not_lt.mpr (le_of_eq h)
  simp only [minByScore]
  rw [foldl_min_keep x xs hmin]

/-- Unfolding equation for the unfiltered dequeue. -/
theorem dequeue_none_eq (q : List ScoredTask) :
    dequeue none q =
      match sortQ q with
      | [] => (none, ([] : List ScoredTask))
      | x :: rest => (some x, rest) := rfl

/-- Unfolding equation for the agent-filtered dequeue. -/
theorem dequeue_some_eq (a : String) (q : List ScoredTask) :
    dequeue (some a) q =
      match minByScore ((sortQ q).filter fun t => decide (t.task_meta.agent = a)) with
      | none => (none, (sortQ q).filter fun t => decide (¬ t.task_meta.agent = a))
      | some best =>
          (some best,
            ((sortQ q).filter fun t => decide (¬ t.task_meta.agent = a)) ++
              ((sortQ q).filter fun t => decide (t.task_meta.agent = a)).filter
                fun t => decide (¬ t = best)) := rfl

/-- What an unfiltered pop returns: a member of the queue that is
(lexicographically) least, and the rest of the drain order. -/
theorem dequeue_none_spec (q q2 : List ScoredTask) (x : ScoredTask)
    (hd : dequeue none q = (some x, q2)) :
    x ∈ q ∧ (∀ y ∈ q, lexLe x y) ∧ sortQ q = x :: q2 := by
  rw [dequeue_none_eq] at hd
  cases hq : sortQ q with
  | nil =>
    rw [hq] at hd
    exact absurd hd (by simp)
  | cons z rest =>
    rw [hq] at hd
    have hz : z = x ∧ rest = q2 := by
      simpa using hd
    obtain ⟨rfl, rfl⟩ := hz
    refine ⟨?_, ?_, rfl⟩
    · have hz2 : z ∈ sortQ q := by
        rw [hq]
        exact List.mem_cons_self z rest
      exact mem_sortQ.mp hz2
    intro y hy
    have hy2 : y ∈ sortQ q := mem_sortQ.mpr hy
    rw [hq] at hy2
    rcases List.mem_cons.mp hy2 with rfl | hy3
    · exact lexLe_refl y
    · exact List.rel_of_sorted_cons (hq ▸ sortQ_sorted q) y hy3

/-- What an agent-filtered pop returns: a matching member of the queue,
least among the matching entries, and the exact remaining queue
(the non-matching entries followed by the matching ones that are not
structurally equal to the returned entry). -/
theorem dequeue_some_spec (a : String) (q q2 : List ScoredTask) (x : ScoredTask)
    (hd : dequeue (some a) q = (some x, q2)) :
    x ∈ q ∧ x.task_meta.agent = a ∧
    (∀ y ∈ q, y.task_meta.agent = a → lexLe x y) ∧
    q2 = ((sortQ q).filter fun t => decide (¬ t.task_meta.agent = a)) ++
      ((sortQ q).filter fun t => decide (t.task_meta.agent = a)).filter
        fun t => decide (¬ t = x) := by
  rw [dequeue_some_eq] at hd
  have hsm : List.Sorted lexLe
      ((sortQ q).filter fun t => decide (t.task_meta.agent = a)) :=
    (sortQ_sorted q).filter _
  cases hmat : (sortQ q).filter fun t => decide (t.task_meta.agent = a) with
  | nil =>
    rw [hmat] at hd
    exact absurd hd (by simp [minByScore])
  | cons z zs =>
    rw [hmat] at hd hsm
    rw [minByScore_of_sorted z zs hsm] at hd
    have hz : z = x ∧
        (((sortQ q).filter fun t => decide (¬ t.task_meta.agent = a)) ++
          (z :: zs).filter fun t => decide (¬ t = z)) = q2 := by
      simpa using hd
    obtain ⟨rfl, hq2⟩ := hz
    have hzmem : z ∈ (sortQ q).filter fun t => decide (t.task_meta.agent = a) := by
      rw [hmat]
      exact List.mem_cons_self z zs
    have hzf := List.mem_filter.mp hzmem
    have hza : z.task_meta.agent = a := by
      have := hzf.2
      simpa using this
    refine ⟨mem_sortQ.mp hzf.1, hza, ?_, by rw [← hq2]⟩
    intro y hy hya
    have hy2 : y ∈ (sortQ q).filter fun t => decide (t.task_meta.agent = a) :=
      List.mem_filter.mpr ⟨mem_sortQ.mpr hy, by simpa using hya⟩
    rw [hmat] at hy2
    rcases List.mem_cons.mp hy2 with rfl | hy3
    · exact lexLe_refl y
    · exact List.rel_of_sorted_cons hsm y hy3

/-- A filtered dequeue that returns empty saw no matching entry. -/
theorem dequeue_some_none_spec (a : String) (q q2 : List ScoredTask)
    (hd : dequeue (some a) q = (none, q2)) :
    ∀ y ∈ q, y.task_meta.agent ≠ a := by
  rw [dequeue_some_eq] at hd
  cases hmat : (sortQ q).filter fun t => decide (t.task_meta.agent = a) with
  | cons z zs =>
    rw [hmat] at hd
    have hsm : List.Sorted lexLe (z :: zs) := by
      rw [← hmat]
      exact (sortQ_sorted q).filter _
    rw [minByScore_of_sorted z zs hsm] at hd
    exact absurd hd (by simp)
  | nil =>
    intro y hy hya
    have hy2 : y ∈ (sortQ q).filter fun t => decide (t.task_meta.agent = a) :=
      List.mem_filter.mpr ⟨mem_sortQ.mpr hy, by simpa using hya⟩
    rw [hmat] at hy2
    exact absurd hy2 (List.not_mem_nil y)

/-- Dequeue only removes entries: the remaining queue is a sub-multiset
of the original (membership form). -/
theorem dequeue_sub (f : Option String) (q : List ScoredTask)
    (r : Option ScoredTask) (q2 : List ScoredTask)
    (hd : dequeue f q = (r, q2)) :
    ∀ y ∈ q2, y ∈ q := by
  intro y hy
  cases f with
  | none =>
    rw [dequeue_none_eq] at hd
    cases hq : sortQ q with
    | nil =>
      rw [hq] at hd
      have h2 : ([] : List ScoredTask) = q2 := congrArg Prod.snd hd
      rw [← h2] at hy
      exact absurd hy (List.not_mem_nil y)
    | cons z rest =>
      rw [hq] at hd
      have h2 : rest = q2 := congrArg Prod.snd hd
      rw [← h2] at hy
      have hy2 : y ∈ sortQ q := by
        rw [hq]
        exact List.mem_cons_of_mem z hy
      exact mem_sortQ.mp hy2
  | some a =>
    rw [dequeue_some_eq] at hd
    cases hmat : (sortQ q).filter fun t => decide (t.task_meta.agent = a) with
    | nil =>
      rw [hmat] at hd
      have h2 : ((sortQ q).filter fun t => decide (¬ t.task_meta.agent = a)) = q2 :=
        congrArg Prod.snd hd
      rw [← h2] at hy
      exact mem_sortQ.mp (List.mem_filter.mp hy).1
    | cons z zs =>
      rw [hmat] at hd
      have hsm : List.Sorted lexLe (z :: zs) := by
        rw [← hmat]
        exact (sortQ_sorted q).filter _
      rw [minByScore_of_sorted z zs hsm] at hd
      have h2 : (((sortQ q).filter fun t => decide (¬ t.task_meta.agent = a)) ++
          (z :: zs).filter fun t => decide (¬ t = z)) = q2 :=
        congrArg Prod.snd hd
      rw [← h2] at hy
      rcases List.mem_append.mp hy with h | h
      · exact mem_sortQ.mp (List.mem_filter.mp h).1
      · have hzz : y ∈ (z :: zs) := List.mem_of_mem_filter h
        rw [← hmat] at hzz
        exact mem_sortQ.mp (List.mem_filter.mp hzz).1

/-- Claim C3: an agent-filtered dequeue returns the lowest-scored
matching entry (empty when none matches), an unfiltered dequeue returns
the lowest-scored entry overall, ties on score go to the earlier enqueue
time (`lexLe` is exactly that (score, enqueue_time) order), and
consecutive dequeues with the same filter and no interleaved enqueues
come out in nondecreasing (score, enqueue_time) order. -/
theorem c3_dequeue_priority_order (q q2 : List ScoredTask) (a : String)
    (x : ScoredTask) :
    (dequeue none q = (some x, q2) → x ∈ q ∧ ∀ y ∈ q, lexLe x y) ∧
    (dequeue (some a) q = (some x, q2) →
      x ∈ q ∧ x.task_meta.agent = a ∧
        ∀ y ∈ q, y.task_meta.agent = a → lexLe x y) ∧
    (dequeue (some a) q = (none, q2) → ∀ y ∈ q, y.task_meta.agent ≠ a) ∧
    (∀ (y : ScoredTask) (q3 : List ScoredTask),
      dequeue none q = (some x, q2) → dequeue none q2 = (some y, q3) →
        lexLe x y) ∧
    (∀ (y : ScoredTask) (q3 : List ScoredTask),
      dequeue (some a) q = (some x, q2) → dequeue (some a) q2 = (some y, q3) →
        lexLe x y) := by
  refine ⟨?_, ?_, ?_, ?_, ?_⟩
  · intro hd
    have h := dequeue_none_spec q q2 x hd
    exact ⟨h.1, h.2.1⟩
  · intro hd
    have h := dequeue_some_spec a q q2 x hd
    exact ⟨h.1, h.2.1, h.2.2.1⟩
  · intro hd
    exact dequeue_some_none_spec a q q2 hd
  · intro y q3 h1 h2
    have s1 := dequeue_none_spec q q2 x h1
    have s2 := dequeue_none_spec q2 q3 y h2
    exact s1.2.1 y (dequeue_sub none q (some x) q2 h1 y s2.1)
  · intro y q3 h1 h2
    have s1 := dequeue_some_spec a q q2 x h1
    have s2 := dequeue_some_spec a q2 q3 y h2
    exact s1.2.2.1 y (dequeue_sub (some a) q (some x) q2 h1 y s2.1) s2.2.1

/-- Witness for C3: from the queue holding sC3a (score -1) and sC3b
(score -2), two consecutive unfiltered dequeues return sC3b then sC3a,
in nondecreasing (score, enqueue_time) order. -/
theorem c3_dequeue_priority_order_witness : lexLe sC3b sC3a := by
  have hnot : ¬ lexLe sC3a sC3b := by
    norm_num [lexLe, sC3a, sC3b]
  have hsort : sortQ [sC3a, sC3b] = [sC3b, sC3a] := by
    simp [sortQ, List.insertionSort, List.orderedInsert, hnot]
  have hsort1 : sortQ [sC3a] = [sC3a] := by
    simp [sortQ, List.insertionSort, List.orderedInsert]
  have h1 : dequeue none [sC3a, sC3b] = (some sC3b, [sC3a]) := by
    rw [dequeue_none_eq, hsort]
  have h2 : dequeue none [sC3a] = (some sC3a, []) := by
    rw [dequeue_none_eq, hsort1]
  exact (c3_dequeue_priority_order [sC3a, sC3b] [sC3a] "agA" sC3b).2.2.2.1
    sC3a [] h1 h2

theorem count_filter_eq (y : ScoredTask) (p : ScoredTask → Bool)
    (l : List ScoredTask) :
    (l.filter p).count y = if p y = true then l.count y else 0 := by
  by_cases h : p y = true
  · rw [if_pos h]
    exact List.count_filter h
  · rw [if_neg h]
    refine List.count_eq_zero.mpr ?_
    intro hy
    exact h (List.mem_filter.mp hy).2

/-- Evaluation of the filtered dequeue on a queue holding two structurally
equal entries: both copies leave the queue though only one is returned. -/
theorem dequeue_dup_eval :
    dequeue (some "ag9") [sC9, sC9] = (some sC9, []) := by
  have hsorted : List.Sorted lexLe [sC9, sC9] := by
    simp [List.sorted_cons, lexLe_refl]
  have hsort : sortQ [sC9, sC9] = [sC9, sC9] := by
    simp [sortQ, List.insertionSort, List.orderedInsert, lexLe_refl sC9]
  have hagent : sC9.task_meta.agent = "ag9" := rfl
  have hfa : ([sC9, sC9].filter fun t => decide (t.task_meta.agent = "ag9")) =
      [sC9, sC9] := by
    simp [List.filter_cons, hagent]
  have hfn : ([sC9, sC9].filter fun t => decide (¬ t.task_meta.agent = "ag9")) =
      [] := by
    simp [List.filter_cons, hagent]
  have hne : ([sC9, sC9].filter fun t => decide (¬ t = sC9)) = [] := by
    simp [List.filter_cons]
  have hmin : minByScore [sC9, sC9] = some sC9 :=
    minByScore_of_sorted sC9 [sC9] hsorted
  rw [dequeue_some_eq, hsort, hfa, hfn, hmin]
  dsimp only
  rw [hne]
  rfl

/-- Claim C9 is false on the code: dequeuing from a queue that holds two
structurally equal copies of the same entry removes both — the push-back
loop skips every entry `!=`-equal to the returned one — so the remaining
queue is empty instead of keeping the duplicate. -/
theorem c9_counterexample :
    (dequeue (some "ag9") [sC9, sC9]).1 = some sC9 ∧
    (dequeue (some "ag9") [sC9, sC9]).2 = [] := by
  rw [dequeue_dup_eval]
  exact ⟨rfl, rfl⟩

/-- Claim C9 amended: when an agent-filtered dequeue returns an entry,
every entry not structurally equal to it survives with its multiplicity
intact, while every copy structurally equal to the returned entry
(duplicates included) is removed from the queue. -/
theorem c9_amended (a : String) (q q2 : List ScoredTask) (x : ScoredTask)
    (hd : dequeue (some a) q = (some x, q2)) :
    q2.count x = 0 ∧ ∀ y : ScoredTask, y ≠ x → q2.count y = q.count y := by
  obtain ⟨hxq, hxa, hmin, hq2⟩ := dequeue_some_spec a q q2 x hd
  subst hq2
  constructor
  · rw [List.count_append]
    have h1 : (((sortQ q).filter fun t =>
        decide (¬ t.task_meta.agent = a)).count x) = 0 := by
      rw [count_filter_eq]
      simp [hxa]
    have h2 : ((((sortQ q).filter fun t =>
        decide (t.task_meta.agent = a)).filter fun t =>
          decide (¬ t = x)).count x) = 0 := by
      rw [count_filter_eq]
      simp
    rw [h1, h2]
  · intro y hyx
    rw [List.count_append, count_filter_eq, count_filter_eq, count_filter_eq]
    have hcnt : (sortQ q).count y = q.count y := (sortQ_perm q).count_eq y
    by_cases hya : y.task_meta.agent = a
    · simp [hya, hyx, hcnt]
    · simp [hya, hyx, hcnt]

/-- Witness for the amended C9 on the duplicate queue: no copy of the
returned entry remains. -/
theorem c9_amended_witness : List.count sC9 ([] : List ScoredTask) = 0 :=
  (c9_amended "ag9" [sC9, sC9] [] sC9 dequeue_dup_eval).1
